import Mathlib

/-!
Verification of the reading-progress / reading-session persistence core of
the repository, as defined by
`src/supabase/migrations/20240320000000_create_reading_tables.sql`.

The SQL schema is embedded shallowly:

* a row of `reading_progress` / `reading_sessions` becomes a Lean structure
  whose fields mirror the SQL columns (UUIDs as `Nat`, nullable columns as
  `Option`, `INTEGER` as `Int`, `DECIMAL(5,2)` as an `Int` counting
  hundredths, timestamps as `Nat`);
* an `INSERT` becomes a function from an insert payload (optional fields,
  `none` = column omitted) to `Except DBError DB`, checking exactly the
  constraints the schema declares: `NOT NULL`, column defaults, foreign
  keys, `DECIMAL(5,2)` range, and `UNIQUE(user_id, book_id)` with
  PostgreSQL's nulls-are-distinct semantics;
* the `BEFORE UPDATE` trigger `update_updated_at_column` becomes a function
  on the `NEW` row;
* each row-level-security policy becomes a boolean predicate over the
  caller's `auth.uid()` (an `Option Nat`: `none` for an unauthenticated
  caller) and a row, with SQL's three-valued `=` — a comparison involving
  NULL is not true.  An `UPDATE` policy declared with only a `USING`
  clause checks that clause against both the old and the new row, which
  is PostgreSQL's documented behaviour.

The service layer (`reportProgress`, `openSession`, `closeSession`, the
read entry points) is not present under `src/`; those functions are
modelled from the specification text and marked as such in their doc
comments.
-/

/-- A row of `reading_progress`.  Columns in the order of the `CREATE TABLE`
statement; `progress DECIMAL(5,2)` is held as an integer number of
hundredths (so `25.00` is `2500`). -/
structure ProgressRow where
  id : Nat
  user_id : Option Nat
  book_id : Option Nat
  current_page : Int
  total_pages : Int
  progress : Int
  last_read_at : Nat
  created_at : Nat
  updated_at : Nat
deriving DecidableEq, Repr

/-- A row of `reading_sessions`. -/
structure SessionRow where
  id : Nat
  user_id : Option Nat
  book_id : Option Nat
  start_time : Nat
  end_time : Option Nat
  pages_read : Int
  duration : Int
  created_at : Nat
  updated_at : Nat
deriving DecidableEq, Repr

/-- The database state: the two tables of the migration plus the two tables
they reference by foreign key (`auth.users` and `books`), which this
migration does not create but does depend on. -/
structure DB where
  users : List Nat
  books : List Nat
  progress : List ProgressRow
  sessions : List SessionRow
deriving DecidableEq, Repr

def emptyDB : DB := ⟨[], [], [], []⟩

/-- Errors surfaced by the store, following the spec's taxonomy (§7). -/
inductive DBError where
  | ConstraintViolation
  | AuthorizationError
  | NotFound
deriving DecidableEq, Repr

/-- A nullable foreign-key reference to `auth.users(id)` is satisfied when it
is NULL or names an existing user (PostgreSQL `MATCH SIMPLE`). -/
def fkUser (db : DB) : Option Nat → Bool
  | none => true
  | some u => db.users.contains u

/-- A nullable foreign-key reference to `books(id)`. -/
def fkBook (db : DB) : Option Nat → Bool
  | none => true
  | some b => db.books.contains b

/-- `DECIMAL(5,2)` admits values with at most three integer digits:
`-999.99 .. 999.99`, i.e. `-99999 .. 99999` hundredths. -/
def decimalOk (p : Int) : Bool := -99999 ≤ p && p ≤ 99999

/-- `UNIQUE(user_id, book_id)`: two rows conflict exactly when both columns
are non-NULL on both sides and pairwise equal — PostgreSQL treats NULLs in
a unique index as distinct from each other. -/
def uniquePairConflict (a b : ProgressRow) : Bool :=
  match a.user_id, b.user_id, a.book_id, b.book_id with
  | some ua, some ub, some ba, some bb => ua == ub && ba == bb
  | _, _, _, _ => false

/-- Payload of an `INSERT INTO reading_progress`.  A `none` field stands for
an omitted column, filled by the column's `DEFAULT` (or rejected when the
column is `NOT NULL` without a default, as `total_pages` is).  `user_id`
and `book_id` are nullable with no default, so omitting them and supplying
NULL coincide. -/
structure ProgressInsert where
  user_id : Option Nat := none
  book_id : Option Nat := none
  current_page : Option Int := none
  total_pages : Option Int := none
  progress : Option Int := none
  last_read_at : Option Nat := none
deriving Repr

/-- `INSERT INTO reading_progress`: apply defaults (`current_page` 0,
`progress` 0, `last_read_at`/`created_at`/`updated_at` `NOW()`), then check
`NOT NULL` on `total_pages`, the foreign keys, the `DECIMAL(5,2)` range and
`UNIQUE(user_id, book_id)`.  On any violation the statement fails and the
state is unchanged. -/
def insertProgress (db : DB) (ins : ProgressInsert) (now : Nat) (newId : Nat) :
    Except DBError DB :=
  match ins.total_pages with
  | none => .error .ConstraintViolation
  | some tp =>
    let row : ProgressRow :=
      { id := newId
        user_id := ins.user_id
        book_id := ins.book_id
        current_page := ins.current_page.getD 0
        total_pages := tp
        progress := ins.progress.getD 0
        last_read_at := ins.last_read_at.getD now
        created_at := now
        updated_at := now }
    if fkUser db row.user_id && fkBook db row.book_id && decimalOk row.progress
        && db.progress.all (fun r => !uniquePairConflict r row) then
      .ok { db with progress := db.progress ++ [row] }
    else
      .error .ConstraintViolation

/-- Payload of an `INSERT INTO reading_sessions`.  `end_time` is a nullable
column with no default, so omission and NULL coincide; `start_time` is
`NOT NULL` without a default and must be supplied. -/
structure SessionInsert where
  user_id : Option Nat := none
  book_id : Option Nat := none
  start_time : Option Nat := none
  end_time : Option Nat := none
  pages_read : Option Int := none
  duration : Option Int := none
deriving Repr

/-- `INSERT INTO reading_sessions`: defaults (`pages_read` 0, `duration` 0,
timestamps `NOW()`), `NOT NULL` on `start_time`, foreign keys.  The table
declares no uniqueness constraint beyond the surrogate primary key. -/
def insertSession (db : DB) (ins : SessionInsert) (now : Nat) (newId : Nat) :
    Except DBError DB :=
  match ins.start_time with
  | none => .error .ConstraintViolation
  | some st =>
    let row : SessionRow :=
      { id := newId
        user_id := ins.user_id
        book_id := ins.book_id
        start_time := st
        end_time := ins.end_time
        pages_read := ins.pages_read.getD 0
        duration := ins.duration.getD 0
        created_at := now
        updated_at := now }
    if fkUser db row.user_id && fkBook db row.book_id then
      .ok { db with sessions := db.sessions ++ [row] }
    else
      .error .ConstraintViolation

/-- The trigger function `update_updated_at_column` as fired `BEFORE UPDATE`
on `reading_progress`: it overwrites `NEW.updated_at` with `NOW()` and
returns `NEW` otherwise unchanged. -/
def update_updated_at_column (now : Nat) (new : ProgressRow) : ProgressRow :=
  { new with updated_at := now }

/-- The same trigger function fired on `reading_sessions`. -/
def update_updated_at_column_sessions (now : Nat) (new : SessionRow) : SessionRow :=
  { new with updated_at := now }

/-- The `SET` list of an `UPDATE reading_progress` statement: a `none` field
is a column the statement does not mention.  `user_id`/`book_id` being
nullable columns, setting them carries an `Option Nat` value. -/
structure ProgressUpdate where
  user_id : Option (Option Nat) := none
  book_id : Option (Option Nat) := none
  current_page : Option Int := none
  total_pages : Option Int := none
  progress : Option Int := none
  last_read_at : Option Nat := none
  created_at : Option Nat := none
  updated_at : Option Nat := none
deriving Repr

/-- Apply an `UPDATE`'s `SET` list to a row, before triggers fire. -/
def applyProgressUpdate (r : ProgressRow) (u : ProgressUpdate) : ProgressRow :=
  { r with
    user_id := u.user_id.getD r.user_id
    book_id := u.book_id.getD r.book_id
    current_page := u.current_page.getD r.current_page
    total_pages := u.total_pages.getD r.total_pages
    progress := u.progress.getD r.progress
    last_read_at := u.last_read_at.getD r.last_read_at
    created_at := u.created_at.getD r.created_at
    updated_at := u.updated_at.getD r.updated_at }

/-- `UPDATE reading_progress SET … WHERE pred`: each matching row passes
through the `SET` list and then the `BEFORE UPDATE` trigger, which stamps
`updated_at = NOW()`. -/
def updateProgressRows (db : DB) (pred : ProgressRow → Bool)
    (u : ProgressUpdate) (now : Nat) : DB :=
  { db with
    progress := db.progress.map (fun r =>
      if pred r then update_updated_at_column now (applyProgressUpdate r u) else r) }

/-- Policy `"Users can view their own reading progress" … FOR SELECT USING
(auth.uid() = user_id)`.  SQL equality is not true when either side is
NULL. -/
def policySelectProgress (uid : Option Nat) (r : ProgressRow) : Bool :=
  match uid, r.user_id with
  | some u, some ru => u == ru
  | _, _ => false

/-- Policy `"Users can insert their own reading progress" … FOR INSERT WITH
CHECK (auth.uid() = user_id)`. -/
def policyInsertProgress (uid : Option Nat) (r : ProgressRow) : Bool :=
  match uid, r.user_id with
  | some u, some ru => u == ru
  | _, _ => false

/-- Policy `"Users can update their own reading progress" … FOR UPDATE USING
(auth.uid() = user_id)`.  With no `WITH CHECK` clause, PostgreSQL applies
the `USING` expression both to the existing row and to the updated row, so
an update is allowed only when both pass. -/
def policyUpdateProgressAllowed (uid : Option Nat) (old new : ProgressRow) : Bool :=
  policySelectProgress uid old && policySelectProgress uid new

/-- Policy `"Users can view their own reading sessions" … FOR SELECT USING
(auth.uid() = user_id)`. -/
def policySelectSession (uid : Option Nat) (r : SessionRow) : Bool :=
  match uid, r.user_id with
  | some u, some ru => u == ru
  | _, _ => false

/-- `listProgress(user_id)` as a `SELECT` on `reading_progress` under
row-level security: the caller sees exactly the rows its SELECT policy
admits — rows failing the policy are filtered out, not reported as
errors. -/
def listProgress (db : DB) (uid : Option Nat) : List ProgressRow :=
  db.progress.filter (policySelectProgress uid)

/-- `getProgress(user_id, book_id)` as a `SELECT … WHERE user_id = … AND
book_id = …` under row-level security; `none` is SQL's "not found". -/
def getProgress (db : DB) (uid : Option Nat) (user book : Nat) :
    Option ProgressRow :=
  (db.progress.filter (fun r =>
    policySelectProgress uid r && r.user_id == some user && r.book_id == some book)).head?

/-- `listSessions(user_id)` as a `SELECT` on `reading_sessions` under
row-level security. -/
def listSessions (db : DB) (uid : Option Nat) (user : Nat) : List SessionRow :=
  db.sessions.filter (fun r =>
    policySelectSession uid r && r.user_id == some user)

/-- Modelled from the spec: the progress computation of §4.3, absent from
`src/`.  `round(current_page / total_pages * 100, 2)` on a page count
already clamped to `[0, total_pages]`, returned in hundredths; when
`total_pages ≤ 0` the progress is treated as 0. -/
def computeProgress (cp tp : Int) : Int :=
  if 0 < tp then (cp * 10000 + tp / 2) / tp else 0

/-- Modelled from the spec: the defensive clamp of §4.3 — `current_page` is
clamped to `[0, total_pages]` before the progress is computed. -/
def clampPage (cp tp : Int) : Int := max 0 (min cp tp)

/-- Modelled from the spec: `reportProgress(user_id, book_id, current_page,
total_pages)` of §4.3 and §6, absent from `src/`.  It clamps the page,
computes the rounded percentage, and upserts keyed on `(user_id,
book_id)`: when a row for the pair exists it is updated (through the `SET`
list and the `BEFORE UPDATE` trigger), otherwise a row is inserted with
`created_at = last_read_at = NOW()`. -/
def reportProgress (db : DB) (uid book : Nat) (cp tp : Int)
    (now : Nat) (newId : Nat) : Except DBError DB :=
  let cp' := clampPage cp tp
  let prog := computeProgress cp' tp
  let isPair : ProgressRow → Bool := fun r =>
    r.user_id == some uid && r.book_id == some book
  if db.progress.any isPair then
    .ok (updateProgressRows db isPair
      { current_page := some cp'
        total_pages := some tp
        progress := some prog
        last_read_at := some now } now)
  else
    insertProgress db
      { user_id := some uid
        book_id := some book
        current_page := some cp'
        total_pages := some tp
        progress := some prog
        last_read_at := some now } now newId

/-- Modelled from the spec: `openSession(user_id, book_id, start_time)` of
§4.4 and §6, absent from `src/`.  Inserts a session with `start_time =
now`, `end_time = NULL`, `pages_read = 0`, `duration = 0`. -/
def openSession (db : DB) (uid book : Nat) (now : Nat) (newId : Nat) :
    Except DBError DB :=
  insertSession db
    { user_id := some uid
      book_id := some book
      start_time := some now } now newId

/-- Modelled from the spec: `closeSession(session_id, end_time, pages_read)`
of §4.4 and §6, absent from `src/`.  The session must exist and be owned
by the caller; closing sets `end_time`, `pages_read` and `duration`
(caller-supplied, or wall-clock `end_time - start_time` seconds), and the
`BEFORE UPDATE` trigger refreshes `updated_at`. -/
def closeSession (db : DB) (uid : Nat) (sid : Nat) (endTime : Nat)
    (pagesRead : Int) (durOpt : Option Int) : Except DBError DB :=
  match db.sessions.find? (fun r => r.id == sid) with
  | none => .error .NotFound
  | some s =>
    if s.user_id == some uid then
      .ok { db with
        sessions := db.sessions.map (fun r =>
          if r.id == sid then
            update_updated_at_column_sessions endTime
              { r with
                end_time := some endTime
                pages_read := pagesRead
                duration := durOpt.getD ((endTime : Int) - (r.start_time : Int)) }
          else r) }
    else
      .error .AuthorizationError

/-- Deleting a row of `auth.users`: both tables reference it with `ON DELETE
CASCADE`, so every progress and session row whose `user_id` names the
deleted user is removed with it. -/
def deleteUser (db : DB) (u : Nat) : DB :=
  { users := db.users.filter (fun x => x ≠ u)
    books := db.books
    progress := db.progress.filter (fun r => r.user_id ≠ some u)
    sessions := db.sessions.filter (fun r => r.user_id ≠ some u) }

/-- Deleting a row of `books`: cascades over `book_id` the same way. -/
def deleteBook (db : DB) (b : Nat) : DB :=
  { users := db.users
    books := db.books.filter (fun x => x ≠ b)
    progress := db.progress.filter (fun r => r.book_id ≠ some b)
    sessions := db.sessions.filter (fun r => r.book_id ≠ some b) }

/-- Creating a user (in `auth.users`, outside this migration but referenced
by it). -/
def createUser (db : DB) (u : Nat) : DB :=
  if db.users.contains u then db else { db with users := u :: db.users }

/-- Creating a book (in `books`, outside this migration but referenced by
it). -/
def createBook (db : DB) (b : Nat) : DB :=
  if db.books.contains b then db else { db with books := b :: db.books }

/-- The mutating operations the store admits: direct `INSERT`s (anything the
schema's constraints accept), the spec's service calls, and creation /
cascade deletion of the referenced users and books. -/
inductive Op where
  | createUser (u : Nat)
  | createBook (b : Nat)
  | deleteUser (u : Nat)
  | deleteBook (b : Nat)
  | insertProgress (ins : ProgressInsert) (now newId : Nat)
  | insertSession (ins : SessionInsert) (now newId : Nat)
  | reportProgress (uid book : Nat) (cp tp : Int) (now newId : Nat)
  | openSession (uid book : Nat) (now newId : Nat)
  | closeSession (uid sid endTime : Nat) (pagesRead : Int) (durOpt : Option Int)

/-- One step of the store.  A failing statement is atomic: it leaves the
state exactly as it was. -/
def applyOp (db : DB) : Op → DB
  | .createUser u => createUser db u
  | .createBook b => createBook db b
  | .deleteUser u => deleteUser db u
  | .deleteBook b => deleteBook db b
  | .insertProgress ins now newId =>
    match insertProgress db ins now newId with
    | .ok db' => db'
    | .error _ => db
  | .insertSession ins now newId =>
    match insertSession db ins now newId with
    | .ok db' => db'
    | .error _ => db
  | .reportProgress uid book cp tp now newId =>
    match reportProgress db uid book cp tp now newId with
    | .ok db' => db'
    | .error _ => db
  | .openSession uid book now newId =>
    match openSession db uid book now newId with
    | .ok db' => db'
    | .error _ => db
  | .closeSession uid sid endTime pagesRead durOpt =>
    match closeSession db uid sid endTime pagesRead durOpt with
    | .ok db' => db'
    | .error _ => db

/-- Run a sequence of operations from a starting state. -/
def runOps (db : DB) (ops : List Op) : DB :=
  ops.foldl applyOp db

/-- Referential integrity: every non-NULL `user_id` / `book_id` stored in
either table names an existing user / book. -/
def refIntegrity (db : DB) : Bool :=
  db.progress.all (fun r => fkUser db r.user_id && fkBook db r.book_id) &&
  db.sessions.all (fun r => fkUser db r.user_id && fkBook db r.book_id)

/-- The `UNIQUE(user_id, book_id)` invariant as a state predicate: no two
distinct rows of `reading_progress` conflict. -/
def uniqueInv (db : DB) : Prop :=
  db.progress.Pairwise (fun a b => uniquePairConflict a b = false)

/-- How many progress rows carry a given fully-non-NULL `(user, book)`
pair. -/
def countPair (db : DB) (u b : Nat) : Nat :=
  db.progress.countP (fun r => r.user_id == some u && r.book_id == some b)

/-! ### Concrete fixture states -/

/-- A store holding user 1 and book 2 and nothing else. -/
def dbUB : DB := { users := [1], books := [2], progress := [], sessions := [] }

/-- A progress row owned by user 1 on book 2. -/
def rowA : ProgressRow :=
  { id := 1, user_id := some 1, book_id := some 2, current_page := 3
    total_pages := 9, progress := 3333, last_read_at := 4, created_at := 4
    updated_at := 4 }

/-- An open session owned by user 1 on book 2. -/
def sessA : SessionRow :=
  { id := 1, user_id := some 1, book_id := some 2, start_time := 4
    end_time := none, pages_read := 0, duration := 0, created_at := 4
    updated_at := 4 }

/-- A store where user 2 owns a progress row and a session on book 3, and
user 1 owns nothing. -/
def dbCross : DB :=
  { users := [1, 2], books := [3]
    progress := [{ id := 7, user_id := some 2, book_id := some 3
                   current_page := 5, total_pages := 10, progress := 5000
                   last_read_at := 6, created_at := 6, updated_at := 6 }]
    sessions := [{ id := 8, user_id := some 2, book_id := some 3
                   start_time := 6, end_time := none, pages_read := 0
                   duration := 0, created_at := 6, updated_at := 6 }] }

/-! ### Theorems -/

/-- Claim C7: an `INSERT INTO reading_progress` that omits `total_pages`
fails with a constraint violation and leaves the store unchanged, whereas
omitting `current_page` (resp. `pages_read`, `duration` for sessions)
succeeds with the column defaulted to 0; `total_pages` has no default. -/
theorem insert_defaults_and_total_pages_required :
    (∀ (db : DB) (ins : ProgressInsert) (now newId : Nat),
      ins.total_pages = none →
        insertProgress db ins now newId = .error .ConstraintViolation ∧
        applyOp db (.insertProgress ins now newId) = db) ∧
    (∀ (db : DB) (u b : Option Nat) (tp : Int) (now newId : Nat) (db' : DB),
      insertProgress db { user_id := u, book_id := b, total_pages := some tp }
          now newId = .ok db' →
        ∃ row, db'.progress = db.progress ++ [row] ∧
          row.current_page = 0 ∧ row.progress = 0 ∧ row.total_pages = tp ∧
          row.last_read_at = now) ∧
    (∀ (db : DB) (ins : SessionInsert) (now newId : Nat) (db' : DB),
      ins.pages_read = none → ins.duration = none →
        insertSession db ins now newId = .ok db' →
        ∃ row, db'.sessions = db.sessions ++ [row] ∧
          row.pages_read = 0 ∧ row.duration = 0) := by
  refine ⟨?_, ?_, ?_⟩
  · intro db ins now newId h
    refine ⟨by simp [insertProgress, h], by simp [applyOp, insertProgress, h]⟩
  · intro db u b tp now newId db' h
    simp only [insertProgress] at h
    split at h
    · exact ⟨_, by cases h; exact ⟨rfl, rfl, rfl, rfl, rfl⟩⟩
    · cases h
  · intro db ins now newId db' hp hd h
    cases hst : ins.start_time with
    | none => simp [insertSession, hst] at h
    | some st =>
      simp only [insertSession, hst] at h
      split at h
      · exact ⟨_, by cases h; exact ⟨rfl, by simp [hp], by simp [hd]⟩⟩
      · cases h

/-- Witness for C7 at concrete inputs. -/
theorem insert_defaults_and_total_pages_required_witness :
    (insertProgress dbUB { user_id := some 1, book_id := some 2 } 5 9 =
        .error .ConstraintViolation) ∧
    (∃ row, (dbUB.progress ++ [row]).length = 1 ∧
      row.current_page = 0 ∧ row.progress = 0 ∧ row.total_pages = (7 : Int) ∧
      row.last_read_at = 5) ∧
    (∃ row, (dbUB.sessions ++ [row]).length = 1 ∧
      row.pages_read = 0 ∧ row.duration = 0) := by
  refine ⟨(insert_defaults_and_total_pages_required.1 dbUB _ 5 9 rfl).1, ?_, ?_⟩
  · obtain ⟨row, hrow, h1, h2, h3, h4⟩ :=
      insert_defaults_and_total_pages_required.2.1 dbUB (some 1) (some 2) 7 5 9 _ rfl
    exact ⟨row, by simp [dbUB], h1, h2, h3, h4⟩
  · obtain ⟨row, hrow, h1, h2⟩ :=
      insert_defaults_and_total_pages_required.2.2 dbUB
        { user_id := some 1, book_id := some 2, start_time := some 5 } 5 9 _ rfl rfl rfl
    exact ⟨row, by simp [dbUB], h1, h2⟩


/-- Claim C8: `reading_sessions` carries no uniqueness constraint — any
number of sessions may coexist for one `(user, book)` pair, and an
existing open session (`end_time = NULL`) never blocks `openSession` from
inserting a new session for the same pair. -/
theorem sessions_unconstrained_multiplicity :
    ∀ (db : DB) (u b now newId : Nat) (s : SessionRow),
      s ∈ db.sessions → s.end_time = none →
      s.user_id = some u → s.book_id = some b →
      fkUser db (some u) = true → fkBook db (some b) = true →
      ∃ db', openSession db u b now newId = .ok db' ∧
        ∃ row, db'.sessions = db.sessions ++ [row] ∧
          row.user_id = some u ∧ row.book_id = some b ∧
          row.start_time = now ∧ row.end_time = none ∧
          row.pages_read = 0 ∧ row.duration = 0 ∧
          s ∈ db'.sessions := by
  intro db u b now newId s hs he hu hb hfu hfb
  have hok : openSession db u b now newId = .ok
      { db with sessions := db.sessions ++
        [{ id := newId, user_id := some u, book_id := some b, start_time := now
           end_time := none, pages_read := 0, duration := 0, created_at := now
           updated_at := now }] } := by
    simp [openSession, insertSession, hfu, hfb]
  exact ⟨_, hok, _, rfl, rfl, rfl, rfl, rfl, rfl, rfl, by simp [hs]⟩

/-- Witness for C8: an open session for (user 1, book 2) is present, and
`openSession` for the same pair still succeeds, leaving both sessions in
the store. -/
theorem sessions_unconstrained_multiplicity_witness :
    ∃ db', openSession { dbUB with sessions := [sessA] } 1 2 9 5 = .ok db' ∧
      ∃ row, db'.sessions = [sessA] ++ [row] ∧
        row.user_id = some 1 ∧ row.book_id = some 2 ∧
        row.start_time = 9 ∧ row.end_time = none ∧
        row.pages_read = 0 ∧ row.duration = 0 ∧
        sessA ∈ db'.sessions := by
  have h := sessions_unconstrained_multiplicity { dbUB with sessions := [sessA] }
    1 2 9 5 sessA (by simp) rfl rfl rfl (by decide) (by decide)
  exact h

/-- A progress row whose `user_id` is NULL. -/
def rowNull : ProgressRow :=
  { id := 10, user_id := none, book_id := some 2, current_page := 0
    total_pages := 5, progress := 0, last_read_at := 3, created_at := 3
    updated_at := 3 }

/-- Claim C9: `user_id` is nullable, so a progress row with NULL `user_id`
is admissible; the unique pair index treats NULL as distinct from NULL, so
two progress rows with NULL `user_id` and the same `book_id` coexist; and
every row policy tests `auth.uid() = user_id`, which is never true on such
rows, so no caller is granted visibility or write access to them. -/
theorem null_user_rows_admissible_invisible :
    ((runOps emptyDB
        [.createBook 2,
         .insertProgress { user_id := none, book_id := some 2, total_pages := some 5 } 3 10,
         .insertProgress { user_id := none, book_id := some 2, total_pages := some 5 } 4 11]).progress.map
        (fun r => (r.user_id, r.book_id)) =
      [(none, some 2), (none, some 2)]) ∧
    (∀ (uid : Option Nat) (r : ProgressRow), r.user_id = none →
      policySelectProgress uid r = false ∧
      policyInsertProgress uid r = false ∧
      ∀ new, policyUpdateProgressAllowed uid r new = false) := by
  constructor
  · decide
  · intro uid r h
    have hsel : policySelectProgress uid r = false := by
      cases uid <;> simp [policySelectProgress, h]
    refine ⟨hsel, ?_, ?_⟩
    · cases uid <;> simp [policyInsertProgress, h]
    · intro new
      simp [policyUpdateProgressAllowed, hsel]

/-- Witness for C9 at a concrete row and caller. -/
theorem null_user_rows_admissible_invisible_witness :
    policySelectProgress (some 1) rowNull = false ∧
    policyInsertProgress (some 1) rowNull = false ∧
    ∀ new, policyUpdateProgressAllowed (some 1) rowNull new = false :=
  null_user_rows_admissible_invisible.2 (some 1) rowNull rfl

/-- If the SELECT policy on `reading_progress` admits a row to caller `a`,
the row is owned by `a`. -/
theorem policySelectProgress_owner (a : Nat) (r : ProgressRow)
    (h : policySelectProgress (some a) r = true) : r.user_id = some a := by
  cases hru : r.user_id with
  | none => simp [policySelectProgress, hru] at h
  | some ru =>
    simp only [policySelectProgress, hru, beq_iff_eq] at h
    simp [hru, h]

/-- If the SELECT policy on `reading_sessions` admits a row to caller `a`,
the row is owned by `a`. -/
theorem policySelectSession_owner (a : Nat) (r : SessionRow)
    (h : policySelectSession (some a) r = true) : r.user_id = some a := by
  cases hru : r.user_id with
  | none => simp [policySelectSession, hru] at h
  | some ru =>
    simp only [policySelectSession, hru, beq_iff_eq] at h
    simp [hru, h]

/-- Claim C2 counterexample: user 2 owns a progress row and a session in
`dbCross`, yet user 1's `listProgress`, `getProgress` and `listSessions`
against user 2's data return an empty list / "not found" — no
`AuthorizationError` is raised; the rows are silently filtered out by the
SELECT policies. -/
theorem cross_user_reads_filtered_not_error :
    dbCross.progress ≠ [] ∧ dbCross.sessions ≠ [] ∧
    listProgress dbCross (some 1) = [] ∧
    getProgress dbCross (some 1) 2 3 = none ∧
    listSessions dbCross (some 1) 2 = [] := by
  refine ⟨by decide, by decide, by decide, by decide, by decide⟩

/-- Claim C2 as amended: a caller authenticated as user A never observes
another user's rows — `listProgress`/`listSessions` return only rows owned
by A, and reads targeting a different user's data come back empty / "not
found" rather than as an error (the row policies filter, they do not
raise). -/
theorem rls_scopes_reads_to_owner :
    (∀ (db : DB) (a : Nat) (r : ProgressRow),
      r ∈ listProgress db (some a) → r.user_id = some a) ∧
    (∀ (db : DB) (a user : Nat) (r : SessionRow),
      r ∈ listSessions db (some a) user → r.user_id = some a) ∧
    (∀ (db : DB) (a b book : Nat), a ≠ b →
      getProgress db (some a) b book = none) ∧
    (∀ (db : DB) (a b : Nat), a ≠ b →
      listSessions db (some a) b = []) := by
  refine ⟨?_, ?_, ?_, ?_⟩
  · intro db a r hr
    exact policySelectProgress_owner a r (List.mem_filter.mp hr).2
  · intro db a user r hr
    have h := (List.mem_filter.mp hr).2
    rw [Bool.and_eq_true] at h
    exact policySelectSession_owner a r h.1
  · intro db a b book hab
    have hnil : db.progress.filter (fun r =>
        policySelectProgress (some a) r && r.user_id == some b
          && r.book_id == some book) = [] := by
      rw [List.filter_eq_nil_iff]
      intro r _ hcontra
      simp only [Bool.and_eq_true, beq_iff_eq] at hcontra
      have := policySelectProgress_owner a r hcontra.1.1
      rw [this] at hcontra
      exact hab (Option.some_injective _ hcontra.1.2)
    simp only [getProgress, hnil, List.head?_nil]
  · intro db a b hab
    rw [listSessions, List.filter_eq_nil_iff]
    intro r _ hcontra
    simp only [Bool.and_eq_true, beq_iff_eq] at hcontra
    have := policySelectSession_owner a r hcontra.1
    rw [this] at hcontra
    exact hab (Option.some_injective _ hcontra.2)

/-- Witness for the amended C2 at concrete inputs. -/
theorem rls_scopes_reads_to_owner_witness :
    getProgress dbCross (some 1) 2 3 = none ∧
    listSessions dbCross (some 1) 2 = [] :=
  ⟨rls_scopes_reads_to_owner.2.2.1 dbCross 1 2 3 (by decide),
   rls_scopes_reads_to_owner.2.2.2 dbCross 1 2 (by decide)⟩

/-- A state reached by inserting rows that carry negative page counters,
durations and page counts: the schema's columns are `INTEGER NOT NULL`
with no sign check, so the store accepts them. -/
def dbNeg : DB :=
  runOps emptyDB
    [.createUser 1, .createBook 2,
     .insertProgress { user_id := some 1, book_id := some 2,
                       current_page := some (-1), total_pages := some (-7) } 5 10,
     .insertSession { user_id := some 1, book_id := some 2, start_time := some 5,
                      pages_read := some (-3), duration := some (-60) } 6 11]

/-- Claim C6 counterexample: an insert supplying `current_page = -1`,
`total_pages = -7`, `pages_read = -3` and `duration = -60` satisfies every
constraint the schema declares, and the negative values are persisted. -/
theorem negative_values_persisted :
    dbNeg.progress.map (fun r => (r.current_page, r.total_pages)) = [(-1, -7)] ∧
    dbNeg.sessions.map (fun r => (r.pages_read, r.duration)) = [(-3, -60)] := by
  refine ⟨by decide, by decide⟩

/-- Claim C6 as amended: the four counter columns are `NOT NULL` and default
to 0 (a non-negative value) when omitted, but the schema places no sign
constraint on them — an insert stores exactly the supplied value, negative
or not. -/
theorem page_counters_sign_unchecked :
    (∀ (db : DB) (ins : ProgressInsert) (now newId : Nat) (db' : DB),
      insertProgress db ins now newId = .ok db' →
      ∃ row, db'.progress = db.progress ++ [row] ∧
        row.current_page = ins.current_page.getD 0 ∧
        ins.total_pages = some row.total_pages) ∧
    (∀ (db : DB) (ins : SessionInsert) (now newId : Nat) (db' : DB),
      insertSession db ins now newId = .ok db' →
      ∃ row, db'.sessions = db.sessions ++ [row] ∧
        row.pages_read = ins.pages_read.getD 0 ∧
        row.duration = ins.duration.getD 0) := by
  constructor
  · intro db ins now newId db' h
    cases htp : ins.total_pages with
    | none => simp [insertProgress, htp] at h
    | some tp =>
      simp only [insertProgress, htp] at h
      split at h
      · exact ⟨_, by cases h; exact ⟨rfl, rfl, rfl⟩⟩
      · cases h
  · intro db ins now newId db' h
    cases hst : ins.start_time with
    | none => simp [insertSession, hst] at h
    | some st =>
      simp only [insertSession, hst] at h
      split at h
      · exact ⟨_, by cases h; exact ⟨rfl, rfl, rfl⟩⟩
      · cases h

/-- Witness for the amended C6: a progress insert supplying `-2` pages and a
session insert supplying a negative duration both store the supplied
values. -/
theorem page_counters_sign_unchecked_witness :
    (∃ row, ({ dbUB with progress := dbUB.progress ++ [row] } : DB).progress ≠ [] ∧
      row.current_page = (-2 : Int) ∧ row.total_pages = (-9 : Int)) ∧
    (∃ row, ({ dbUB with sessions := dbUB.sessions ++ [row] } : DB).sessions ≠ [] ∧
      row.pages_read = (-4 : Int) ∧ row.duration = (-8 : Int)) := by
  constructor
  · obtain ⟨row, hrow, h1, h2⟩ := page_counters_sign_unchecked.1 dbUB
      { user_id := some 1, book_id := some 2, current_page := some (-2),
        total_pages := some (-9) } 5 10 _ rfl
    exact ⟨row, by simp, h1, (Option.some_injective _ h2).symm⟩
  · obtain ⟨row, hrow, h1, h2⟩ := page_counters_sign_unchecked.2 dbUB
      { user_id := some 1, book_id := some 2, start_time := some 5,
        pages_read := some (-4), duration := some (-8) } 5 10 _ rfl
    exact ⟨row, by simp, h1, h2⟩

/-- Claim C4: on every update of a `reading_progress` or `reading_sessions`
row the `BEFORE UPDATE` trigger stamps `updated_at = NOW()` — the time of
the mutation — overriding whatever value the statement itself assigned to
`updated_at`; rows keep the `created_at` the statement did not touch, and
an insert stamps `created_at = updated_at = NOW()`. -/
theorem timestamps_auto_maintained :
    (∀ (now : Nat) (new : ProgressRow),
      (update_updated_at_column now new).updated_at = now) ∧
    (∀ (now : Nat) (new : SessionRow),
      (update_updated_at_column_sessions now new).updated_at = now) ∧
    (∀ (db : DB) (pred : ProgressRow → Bool) (u : ProgressUpdate) (now : Nat)
        (i : Nat) (r : ProgressRow),
      u.created_at = none →
      db.progress[i]? = some r →
      ∃ r', (updateProgressRows db pred u now).progress[i]? = some r' ∧
        r'.created_at = r.created_at ∧
        (pred r = true → r'.updated_at = now) ∧
        (pred r = false → r' = r)) ∧
    (∀ (db : DB) (ins : ProgressInsert) (now newId : Nat) (db' : DB),
      insertProgress db ins now newId = .ok db' →
      ∃ row, db'.progress = db.progress ++ [row] ∧
        row.created_at = now ∧ row.updated_at = now) ∧
    (∀ (db : DB) (uid sid endTime : Nat) (pagesRead : Int) (durOpt : Option Int)
        (db' : DB) (i : Nat) (r : SessionRow),
      closeSession db uid sid endTime pagesRead durOpt = .ok db' →
      db.sessions[i]? = some r →
      ∃ r', db'.sessions[i]? = some r' ∧
        r'.created_at = r.created_at ∧
        (r.id = sid → r'.updated_at = endTime)) := by
  refine ⟨fun _ _ => rfl, fun _ _ => rfl, ?_, ?_, ?_⟩
  · intro db pred u now i r hc hr
    refine ⟨if pred r then update_updated_at_column now (applyProgressUpdate r u) else r,
      ?_, ?_, ?_, ?_⟩
    · show (db.progress.map _)[i]? = _
      rw [List.getElem?_map, hr, Option.map_some']
    · cases hp : pred r <;>
        simp [hp, update_updated_at_column, applyProgressUpdate, hc]
    · intro hp
      simp [hp, update_updated_at_column]
    · intro hp
      simp [hp]
  · intro db ins now newId db' h
    cases htp : ins.total_pages with
    | none => simp [insertProgress, htp] at h
    | some tp =>
      simp only [insertProgress, htp] at h
      split at h
      · exact ⟨_, by cases h; exact ⟨rfl, rfl, rfl⟩⟩
      · cases h
  · intro db uid sid endTime pagesRead durOpt db' i r hok hr
    simp only [closeSession] at hok
    split at hok
    · cases hok
    · split at hok
      · cases hok
        refine ⟨if r.id == sid then
            update_updated_at_column_sessions endTime
              { r with
                end_time := some endTime
                pages_read := pagesRead
                duration := durOpt.getD ((endTime : Int) - (r.start_time : Int)) }
          else r, ?_, ?_, ?_⟩
        · show (db.sessions.map _)[i]? = _
          rw [List.getElem?_map, hr, Option.map_some']
        · cases hid : r.id == sid <;>
            simp [hid, update_updated_at_column_sessions]
        · intro hid
          simp [hid, update_updated_at_column_sessions]
      · cases hok

/-- Witness for C4: an update whose `SET` list itself assigns
`updated_at = 77` still ends up with `updated_at = 9`, the mutation time,
and an untouched `created_at`; and a closed session keeps its
`created_at` while `updated_at` becomes the closing time. -/
theorem timestamps_auto_maintained_witness :
    (∃ r', (updateProgressRows { dbUB with progress := [rowA] } (fun _ => true)
        { current_page := some 5, updated_at := some 77 } 9).progress[0]? = some r' ∧
      r'.created_at = rowA.created_at ∧
      ((fun (_ : ProgressRow) => true) rowA = true → r'.updated_at = 9) ∧
      ((fun (_ : ProgressRow) => true) rowA = false → r' = rowA)) ∧
    (∃ db' r', closeSession { dbUB with sessions := [sessA] } 1 1 9 10 none = .ok db' ∧
      db'.sessions[0]? = some r' ∧ r'.created_at = sessA.created_at ∧
      (sessA.id = 1 → r'.updated_at = 9)) := by
  constructor
  · exact timestamps_auto_maintained.2.2.1 { dbUB with progress := [rowA] }
      (fun _ => true) { current_page := some 5, updated_at := some 77 } 9 0 rowA rfl rfl
  · have hok : closeSession { dbUB with sessions := [sessA] } 1 1 9 10 none = .ok
        { dbUB with sessions :=
          [{ sessA with
              end_time := some 9
              pages_read := 10
              duration := 5
              updated_at := 9 }] } := by
      rfl
    obtain ⟨r', h1, h2, h3⟩ := timestamps_auto_maintained.2.2.2.2
      { dbUB with sessions := [sessA] } 1 1 9 10 none _ 0 sessA hok rfl
    exact ⟨_, r', hok, h1, h2, h3⟩

/-- Claim C10 counterexample: user 1 owns `rowA` (the UPDATE policy's
`USING` clause admits exactly this caller), yet an update rewriting
`user_id` to user 2 is rejected — with no `WITH CHECK` clause the `USING`
expression is also evaluated against the updated row, where
`auth.uid() = user_id` fails.  The policy mechanism therefore does
prevent an update from changing `user_id`. -/
theorem owner_cannot_change_user_id :
    policySelectProgress (some 1) rowA = true ∧
    policyUpdateProgressAllowed (some 1) rowA { rowA with user_id := some 2 } = false := by
  refine ⟨by decide, by decide⟩

/-- Claim C10 as amended: the trigger rewrites only `updated_at` and leaves
every other column exactly as the update statement set it; no schema
mechanism keeps an update from changing `created_at` or `book_id`
(foreign keys permitting); `user_id`, however, cannot be changed by a
caller subject to the row policies, because the UPDATE policy's `USING`
expression is also checked against the updated row. -/
theorem trigger_frame_and_mutable_columns :
    (∀ (now : Nat) (new : ProgressRow),
      (update_updated_at_column now new).id = new.id ∧
      (update_updated_at_column now new).user_id = new.user_id ∧
      (update_updated_at_column now new).book_id = new.book_id ∧
      (update_updated_at_column now new).current_page = new.current_page ∧
      (update_updated_at_column now new).total_pages = new.total_pages ∧
      (update_updated_at_column now new).progress = new.progress ∧
      (update_updated_at_column now new).last_read_at = new.last_read_at ∧
      (update_updated_at_column now new).created_at = new.created_at) ∧
    (∀ (now : Nat) (new : SessionRow),
      (update_updated_at_column_sessions now new).id = new.id ∧
      (update_updated_at_column_sessions now new).user_id = new.user_id ∧
      (update_updated_at_column_sessions now new).book_id = new.book_id ∧
      (update_updated_at_column_sessions now new).start_time = new.start_time ∧
      (update_updated_at_column_sessions now new).end_time = new.end_time ∧
      (update_updated_at_column_sessions now new).pages_read = new.pages_read ∧
      (update_updated_at_column_sessions now new).duration = new.duration ∧
      (update_updated_at_column_sessions now new).created_at = new.created_at) ∧
    (∀ (uid : Option Nat) (old new : ProgressRow),
      policyUpdateProgressAllowed uid old new = true → new.user_id = old.user_id) ∧
    (policyUpdateProgressAllowed (some 1) rowA
        { rowA with book_id := some 7, created_at := 99 } = true ∧
      ({ rowA with book_id := some 7, created_at := 99 } : ProgressRow).created_at ≠
        rowA.created_at ∧
      ({ rowA with book_id := some 7, created_at := 99 } : ProgressRow).book_id ≠
        rowA.book_id) := by
  refine ⟨?_, ?_, ?_, by decide, by decide, by decide⟩
  · intro now new
    exact ⟨rfl, rfl, rfl, rfl, rfl, rfl, rfl, rfl⟩
  · intro now new
    exact ⟨rfl, rfl, rfl, rfl, rfl, rfl, rfl, rfl⟩
  · intro uid old new h
    rw [policyUpdateProgressAllowed, Bool.and_eq_true] at h
    cases uid with
    | none => simp [policySelectProgress] at h
    | some a =>
      rw [policySelectProgress_owner a old h.1, policySelectProgress_owner a new h.2]

/-- Witness for the amended C10: a policy-allowed update of `rowA` keeps its
`user_id`. -/
theorem trigger_frame_and_mutable_columns_witness :
    ({ rowA with current_page := 4 } : ProgressRow).user_id = rowA.user_id :=
  trigger_frame_and_mutable_columns.2.2.1 (some 1) rowA
    { rowA with current_page := 4 } (by decide)

/-- The clamped page is non-negative. -/
theorem clampPage_nonneg (cp tp : Int) : 0 ≤ clampPage cp tp :=
  le_max_left 0 (min cp tp)

/-- The clamped page does not exceed `total_pages` (when that is
non-negative). -/
theorem clampPage_le (cp tp : Int) (h : 0 ≤ tp) : clampPage cp tp ≤ tp :=
  max_le h (min_le_right cp tp)

/-- The computed progress is non-negative for a non-negative page count. -/
theorem computeProgress_nonneg (cp tp : Int) (hcp : 0 ≤ cp) :
    0 ≤ computeProgress cp tp := by
  rw [computeProgress]
  split
  · rename_i htp
    apply Int.ediv_nonneg _ htp.le
    have h : (0:Int) ≤ tp / 2 := by positivity
    nlinarith
  · exact le_refl 0

/-- The computed progress never exceeds 100.00 (= 10000 hundredths) when the
page count is within `[0, total_pages]`. -/
theorem computeProgress_le (cp tp : Int) (htp : 0 < tp) (hle : cp ≤ tp)
    (hcp : 0 ≤ cp) : computeProgress cp tp ≤ 10000 := by
  rw [computeProgress, if_pos htp]
  have h1 : cp * 10000 + tp / 2 ≤ tp / 2 + 10000 * tp := by nlinarith
  have h2 : (cp * 10000 + tp / 2) / tp ≤ (tp / 2 + 10000 * tp) / tp :=
    Int.ediv_le_ediv htp h1
  have hz : tp / 2 / tp = 0 :=
    Int.ediv_eq_zero_of_lt (by positivity) (by omega)
  rw [Int.add_mul_ediv_right _ _ (ne_of_gt htp), hz] at h2
  omega

/-- Claim C3: a successful `reportProgress(user, book, current_page,
total_pages)` with `total_pages > 0` stores, in the row for the pair, the
page clamped to `[0, total_pages]` and the progress
`round(clamped / total_pages * 100, 2)` (in hundredths:
`(clamped * 10000 + total_pages / 2) / total_pages`), which always lies in
`[0, 100.00]`; concretely, `(50, 200)` stores progress `25.00` and
`(250, 200)` succeeds storing `current_page = 200`, progress `100.00`. -/
theorem reportProgress_progress_formula :
    (∀ (db : DB) (uid book : Nat) (cp tp : Int) (now newId : Nat) (db' : DB),
      0 < tp →
      reportProgress db uid book cp tp now newId = .ok db' →
      ∀ r ∈ db'.progress, r.user_id = some uid → r.book_id = some book →
        r.current_page = max 0 (min cp tp) ∧
        r.total_pages = tp ∧
        r.progress = (max 0 (min cp tp) * 10000 + tp / 2) / tp ∧
        0 ≤ r.progress ∧ r.progress ≤ 10000) ∧
    ((reportProgress dbUB 1 2 50 200 10 100).toOption.map
        (fun d => d.progress.map (fun r => (r.current_page, r.progress))) =
      some [(50, 2500)]) ∧
    ((reportProgress dbUB 1 2 250 200 10 100).toOption.map
        (fun d => d.progress.map (fun r => (r.current_page, r.progress))) =
      some [(200, 10000)]) := by
  refine ⟨?_, by decide, by decide⟩
  intro db uid book cp tp now newId db' htp hok r hr hu hb
  have hbounds : r.current_page = clampPage cp tp ∧ r.total_pages = tp ∧
      r.progress = computeProgress (clampPage cp tp) tp := by
    rw [reportProgress] at hok
    split at hok
    · rename_i hany
      cases hok
      rw [updateProgressRows] at hr
      obtain ⟨r₀, hr₀, hfr⟩ := List.mem_map.mp hr
      by_cases hp : (r₀.user_id == some uid && r₀.book_id == some book) = true
      · rw [if_pos hp] at hfr
        rw [← hfr]
        exact ⟨rfl, rfl, rfl⟩
      · rw [if_neg hp] at hfr
        exfalso
        apply hp
        rw [← hfr] at hu hb
        simp [hu, hb]
    · rename_i hany
      simp only [insertProgress] at hok
      split at hok
      · cases hok
        rcases List.mem_append.mp hr with hmem | hmem
        · exfalso
          rw [Bool.not_eq_true, List.any_eq_false] at hany
          exact hany r hmem (by simp [hu, hb])
        · rw [List.mem_singleton] at hmem
          subst hmem
          exact ⟨rfl, rfl, rfl⟩
      · cases hok
  obtain ⟨h1, h2, h3⟩ := hbounds
  have hclamp_nonneg := clampPage_nonneg cp tp
  have hclamp_le := clampPage_le cp tp htp.le
  refine ⟨?_, h2, ?_, ?_, ?_⟩
  · rw [h1, clampPage]
  · rw [h3, computeProgress, if_pos htp, clampPage]
  · rw [h3]
    exact computeProgress_nonneg _ tp hclamp_nonneg
  · rw [h3]
    exact computeProgress_le _ tp htp hclamp_le hclamp_nonneg

/-- Witness for C3: applying the formula theorem to the concrete call
`reportProgress(1, 2, 250, 200)` on `dbUB`. -/
theorem reportProgress_progress_formula_witness :
    ∃ db', reportProgress dbUB 1 2 250 200 10 100 = .ok db' ∧
      ∀ r ∈ db'.progress, r.user_id = some 1 → r.book_id = some 2 →
        r.current_page = max 0 (min 250 200) ∧
        r.total_pages = 200 ∧
        r.progress = (max 0 (min (250:Int) 200) * 10000 + 200 / 2) / 200 ∧
        0 ≤ r.progress ∧ r.progress ≤ 10000 := by
  refine ⟨_, rfl, ?_⟩
  exact reportProgress_progress_formula.1 dbUB 1 2 250 200 10 100 _
    (by norm_num) rfl

/-- Two rows that both carry the same fully-non-NULL `(user, book)` pair
conflict under the unique index. -/
theorem conflict_of_both_match (u b : Nat) (r₁ r₂ : ProgressRow)
    (h₁ : (r₁.user_id == some u && r₁.book_id == some b) = true)
    (h₂ : (r₂.user_id == some u && r₂.book_id == some b) = true) :
    uniquePairConflict r₁ r₂ = true := by
  rw [Bool.and_eq_true, beq_iff_eq, beq_iff_eq] at h₁ h₂
  rw [uniquePairConflict, h₁.1, h₁.2, h₂.1, h₂.2]
  simp

/-- A pairwise-conflict-free list holds at most one row per fully-non-NULL
pair. -/
theorem countP_pair_le_one (u b : Nat) :
    ∀ (l : List ProgressRow),
      l.Pairwise (fun a c => uniquePairConflict a c = false) →
      l.countP (fun r => r.user_id == some u && r.book_id == some b) ≤ 1 := by
  intro l
  induction l with
  | nil => intro _; simp
  | cons a l ih =>
    intro hp
    rw [List.pairwise_cons] at hp
    rw [List.countP_cons]
    cases ha : (a.user_id == some u && a.book_id == some b) with
    | false => simpa [ha] using ih hp.2
    | true =>
      have hzero : l.countP (fun r => r.user_id == some u && r.book_id == some b) = 0 := by
        rw [List.countP_eq_zero]
        intro c hc hcontra
        have hconf := conflict_of_both_match u b a c ha hcontra
        rw [hp.1 c hc] at hconf
        cases hconf
      simp [ha, hzero]

/-- `uniquePairConflict` looks only at the `user_id` and `book_id` columns. -/
theorem uniquePairConflict_congr (a a' c c' : ProgressRow)
    (hu : a'.user_id = a.user_id) (hb : a'.book_id = a.book_id)
    (hu' : c'.user_id = c.user_id) (hb' : c'.book_id = c.book_id) :
    uniquePairConflict a' c' = uniquePairConflict a c := by
  rw [uniquePairConflict, uniquePairConflict, hu, hb, hu', hb']

/-- A row passed through an `UPDATE`'s `SET` list (one that does not mention
`user_id` or `book_id`) and the trigger keeps its pair columns. -/
theorem updateRow_preserves_pair (r : ProgressRow) (pred : ProgressRow → Bool)
    (u : ProgressUpdate) (now : Nat) (hu : u.user_id = none) (hb : u.book_id = none) :
    ((if pred r then update_updated_at_column now (applyProgressUpdate r u) else r).user_id
        = r.user_id) ∧
    ((if pred r then update_updated_at_column now (applyProgressUpdate r u) else r).book_id
        = r.book_id) := by
  cases pred r <;> simp [update_updated_at_column, applyProgressUpdate, hu, hb]

/-- A successful insert into `reading_progress` preserves the uniqueness
invariant: the statement is admitted only after the unique-index check
against every present row. -/
theorem insertProgress_uniqueInv (db : DB) (ins : ProgressInsert)
    (now newId : Nat) (db' : DB)
    (h : insertProgress db ins now newId = .ok db') (hinv : uniqueInv db) :
    uniqueInv db' := by
  cases htp : ins.total_pages with
  | none => simp [insertProgress, htp] at h
  | some tp =>
    simp only [insertProgress, htp] at h
    split at h
    · rename_i hcond
      cases h
      rw [uniqueInv, List.pairwise_append]
      refine ⟨hinv, List.pairwise_singleton _ _, ?_⟩
      intro a ha c hc
      rw [List.mem_singleton] at hc
      subst hc
      rw [Bool.and_eq_true, Bool.and_eq_true, Bool.and_eq_true] at hcond
      have hall := hcond.2
      rw [List.all_eq_true] at hall
      have := hall a ha
      rwa [Bool.not_eq_true'] at this
    · cases h

/-- An `UPDATE` whose `SET` list does not mention `user_id` or `book_id`
preserves the uniqueness invariant. -/
theorem updateProgressRows_uniqueInv (db : DB) (pred : ProgressRow → Bool)
    (u : ProgressUpdate) (now : Nat) (hu : u.user_id = none)
    (hb : u.book_id = none) (hinv : uniqueInv db) :
    uniqueInv (updateProgressRows db pred u now) := by
  rw [uniqueInv, updateProgressRows]
  apply hinv.map
  intro a c hac
  have hpa := updateRow_preserves_pair a pred u now hu hb
  have hpc := updateRow_preserves_pair c pred u now hu hb
  have hcg := uniquePairConflict_congr a _ c _ hpa.1 hpa.2 hpc.1 hpc.2
  rw [hcg]
  exact hac

/-- Every operation of the store preserves the uniqueness invariant on
`reading_progress`. -/
theorem applyOp_uniqueInv (db : DB) (op : Op) (hinv : uniqueInv db) :
    uniqueInv (applyOp db op) := by
  cases op with
  | createUser u =>
    show uniqueInv (createUser db u)
    rw [createUser]
    split <;> exact hinv
  | createBook b =>
    show uniqueInv (createBook db b)
    rw [createBook]
    split <;> exact hinv
  | deleteUser u => exact hinv.filter _
  | deleteBook b => exact hinv.filter _
  | insertProgress ins now newId =>
    show uniqueInv (match insertProgress db ins now newId with
      | .ok db' => db' | .error _ => db)
    cases h : insertProgress db ins now newId with
    | ok db' => exact insertProgress_uniqueInv db ins now newId db' h hinv
    | error _ => exact hinv
  | insertSession ins now newId =>
    show uniqueInv (match insertSession db ins now newId with
      | .ok db' => db' | .error _ => db)
    cases h : insertSession db ins now newId with
    | ok db' =>
      cases hst : ins.start_time with
      | none => simp [insertSession, hst] at h
      | some st =>
        simp only [insertSession, hst] at h
        split at h
        · cases h; exact hinv
        · cases h
    | error _ => exact hinv
  | reportProgress uid book cp tp now newId =>
    show uniqueInv (match reportProgress db uid book cp tp now newId with
      | .ok db' => db' | .error _ => db)
    cases h : reportProgress db uid book cp tp now newId with
    | ok db' =>
      rw [reportProgress] at h
      split at h
      · cases h
        exact updateProgressRows_uniqueInv db _ _ now rfl rfl hinv
      · exact insertProgress_uniqueInv db _ now newId db' h hinv
    | error _ => exact hinv
  | openSession uid book now newId =>
    show uniqueInv (match openSession db uid book now newId with
      | .ok db' => db' | .error _ => db)
    cases h : openSession db uid book now newId with
    | ok db' =>
      rw [openSession] at h
      simp only [insertSession] at h
      split at h
      · cases h; exact hinv
      · cases h
    | error _ => exact hinv
  | closeSession uid sid endTime pagesRead durOpt =>
    show uniqueInv (match closeSession db uid sid endTime pagesRead durOpt with
      | .ok db' => db' | .error _ => db)
    cases h : closeSession db uid sid endTime pagesRead durOpt with
    | ok db' =>
      rw [closeSession] at h
      split at h
      · cases h
      · split at h
        · cases h; exact hinv
        · cases h
    | error _ => exact hinv

/-- Any run of operations preserves the uniqueness invariant. -/
theorem runOps_uniqueInv (ops : List Op) :
    ∀ (db : DB), uniqueInv db → uniqueInv (runOps db ops) := by
  induction ops with
  | nil => intro db h; exact h
  | cons op ops ih =>
    intro db h
    exact ih (applyOp db op) (applyOp_uniqueInv db op h)

/-- Claim C1: starting from any state satisfying the unique-pair invariant,
any sequence of operations (in particular any sequence of `reportProgress`
calls) leaves at most one `reading_progress` row per fully-non-NULL
`(user, book)` pair; and a `reportProgress` for a pair that already has a
row updates in place — the table's row count does not change. -/
theorem progress_pair_unique :
    (∀ (db : DB) (ops : List Op) (u b : Nat), uniqueInv db →
      countPair (runOps db ops) u b ≤ 1) ∧
    (∀ (db : DB) (u b : Nat) (cp tp : Int) (now newId : Nat),
      (db.progress.any (fun r => r.user_id == some u && r.book_id == some b)) = true →
      (applyOp db (.reportProgress u b cp tp now newId)).progress.length =
        db.progress.length) := by
  constructor
  · intro db ops u b hinv
    exact countP_pair_le_one u b _ (runOps_uniqueInv ops db hinv)
  · intro db u b cp tp now newId hany
    show (match reportProgress db u b cp tp now newId with
      | .ok db' => db' | .error _ => db).progress.length = db.progress.length
    rw [reportProgress, if_pos hany]
    show (updateProgressRows db _ _ now).progress.length = _
    rw [updateProgressRows]
    exact List.length_map _ _

/-- Witness for C1: two successive `reportProgress` calls for the pair
(user 1, book 2) leave a single row, and a report against a state already
holding the pair's row keeps the row count at one. -/
theorem progress_pair_unique_witness :
    countPair (runOps dbUB
      [.reportProgress 1 2 50 200 10 100, .reportProgress 1 2 250 200 11 101]) 1 2 ≤ 1 ∧
    (applyOp { dbUB with progress := [rowA] }
        (.reportProgress 1 2 60 200 12 102)).progress.length =
      ({ dbUB with progress := [rowA] } : DB).progress.length :=
  ⟨progress_pair_unique.1 dbUB _ 1 2 List.Pairwise.nil,
   progress_pair_unique.2 { dbUB with progress := [rowA] } 1 2 60 200 12 102 (by decide)⟩

/-- Membership formulation of the user foreign key. -/
theorem fkUser_some_iff (db : DB) (x : Nat) :
    fkUser db (some x) = true ↔ x ∈ db.users := by
  simp [fkUser, List.contains, List.elem_iff]

/-- Membership formulation of the book foreign key. -/
theorem fkBook_some_iff (db : DB) (x : Nat) :
    fkBook db (some x) = true ↔ x ∈ db.books := by
  simp [fkBook, List.contains, List.elem_iff]

/-- Adding a user keeps every satisfied user reference satisfied. -/
theorem fkUser_cons (db : DB) (u : Nat) (ref : Option Nat)
    (h : fkUser db ref = true) :
    fkUser { db with users := u :: db.users } ref = true := by
  cases ref with
  | none => rfl
  | some x =>
    rw [fkUser_some_iff] at h ⊢
    exact List.mem_cons_of_mem u h

/-- Adding a book keeps every satisfied book reference satisfied. -/
theorem fkBook_cons (db : DB) (b : Nat) (ref : Option Nat)
    (h : fkBook db ref = true) :
    fkBook { db with books := b :: db.books } ref = true := by
  cases ref with
  | none => rfl
  | some x =>
    rw [fkBook_some_iff] at h ⊢
    exact List.mem_cons_of_mem b h

/-- Elimination/introduction form of the referential-integrity invariant. -/
theorem refIntegrity_iff (db : DB) :
    refIntegrity db = true ↔
      (∀ r ∈ db.progress, fkUser db r.user_id = true ∧ fkBook db r.book_id = true) ∧
      (∀ s ∈ db.sessions, fkUser db s.user_id = true ∧ fkBook db s.book_id = true) := by
  simp [refIntegrity, List.all_eq_true]

/-- A successful insert into `reading_progress` preserves referential
integrity: the foreign keys of the new row are checked by the insert. -/
theorem refIntegrity_insertProgress (db : DB) (ins : ProgressInsert)
    (now newId : Nat) (db' : DB)
    (hins : insertProgress db ins now newId = .ok db')
    (h : refIntegrity db = true) : refIntegrity db' = true := by
  cases htp : ins.total_pages with
  | none => simp [insertProgress, htp] at hins
  | some tp =>
    simp only [insertProgress, htp] at hins
    split at hins
    · rename_i hcond
      cases hins
      rw [Bool.and_eq_true, Bool.and_eq_true, Bool.and_eq_true] at hcond
      rw [refIntegrity_iff] at h ⊢
      refine ⟨?_, ?_⟩
      · intro r hr
        rcases List.mem_append.mp hr with hm | hm
        · obtain ⟨h1, h2⟩ := h.1 r hm
          exact ⟨h1, h2⟩
        · rw [List.mem_singleton] at hm
          subst hm
          exact ⟨hcond.1.1.1, hcond.1.1.2⟩
      · intro s hs
        obtain ⟨h1, h2⟩ := h.2 s hs
        exact ⟨h1, h2⟩
    · cases hins

/-- A successful insert into `reading_sessions` preserves referential
integrity. -/
theorem refIntegrity_insertSession (db : DB) (ins : SessionInsert)
    (now newId : Nat) (db' : DB)
    (hins : insertSession db ins now newId = .ok db')
    (h : refIntegrity db = true) : refIntegrity db' = true := by
  cases hst : ins.start_time with
  | none => simp [insertSession, hst] at hins
  | some st =>
    simp only [insertSession, hst] at hins
    split at hins
    · rename_i hcond
      cases hins
      rw [Bool.and_eq_true] at hcond
      rw [refIntegrity_iff] at h ⊢
      refine ⟨?_, ?_⟩
      · intro r hr
        obtain ⟨h1, h2⟩ := h.1 r hr
        exact ⟨h1, h2⟩
      · intro s hs
        rcases List.mem_append.mp hs with hm | hm
        · obtain ⟨h1, h2⟩ := h.2 s hm
          exact ⟨h1, h2⟩
        · rw [List.mem_singleton] at hm
          subst hm
          exact ⟨hcond.1, hcond.2⟩
    · cases hins

/-- Every operation of the store preserves referential integrity. -/
theorem applyOp_refIntegrity (db : DB) (op : Op)
    (h : refIntegrity db = true) : refIntegrity (applyOp db op) = true := by
  cases op with
  | createUser u =>
    show refIntegrity (createUser db u) = true
    rw [createUser]
    split
    · exact h
    · rw [refIntegrity_iff] at h ⊢
      refine ⟨?_, ?_⟩
      · intro r hr
        obtain ⟨h1, h2⟩ := h.1 r hr
        exact ⟨fkUser_cons db u _ h1, h2⟩
      · intro s hs
        obtain ⟨h1, h2⟩ := h.2 s hs
        exact ⟨fkUser_cons db u _ h1, h2⟩
  | createBook b =>
    show refIntegrity (createBook db b) = true
    rw [createBook]
    split
    · exact h
    · rw [refIntegrity_iff] at h ⊢
      refine ⟨?_, ?_⟩
      · intro r hr
        obtain ⟨h1, h2⟩ := h.1 r hr
        exact ⟨h1, fkBook_cons db b _ h2⟩
      · intro s hs
        obtain ⟨h1, h2⟩ := h.2 s hs
        exact ⟨h1, fkBook_cons db b _ h2⟩
  | deleteUser u =>
    show refIntegrity (deleteUser db u) = true
    rw [refIntegrity_iff] at h ⊢
    refine ⟨?_, ?_⟩
    · intro r hr
      have hmf := List.mem_filter.mp hr
      obtain ⟨h1, h2⟩ := h.1 r hmf.1
      have hne : r.user_id ≠ some u := by simpa using hmf.2
      refine ⟨?_, ?_⟩
      · cases hu : r.user_id with
        | none => rfl
        | some x =>
          rw [hu] at h1 hne
          rw [fkUser_some_iff] at h1 ⊢
          show x ∈ db.users.filter _
          rw [List.mem_filter]
          refine ⟨h1, by simp; intro hxu; exact hne (by rw [hxu])⟩
      · exact h2
    · intro s hs
      have hmf := List.mem_filter.mp hs
      obtain ⟨h1, h2⟩ := h.2 s hmf.1
      have hne : s.user_id ≠ some u := by simpa using hmf.2
      refine ⟨?_, ?_⟩
      · cases hu : s.user_id with
        | none => rfl
        | some x =>
          rw [hu] at h1 hne
          rw [fkUser_some_iff] at h1 ⊢
          show x ∈ db.users.filter _
          rw [List.mem_filter]
          refine ⟨h1, by simp; intro hxu; exact hne (by rw [hxu])⟩
      · exact h2
  | deleteBook b =>
    show refIntegrity (deleteBook db b) = true
    rw [refIntegrity_iff] at h ⊢
    refine ⟨?_, ?_⟩
    · intro r hr
      have hmf := List.mem_filter.mp hr
      obtain ⟨h1, h2⟩ := h.1 r hmf.1
      have hne : r.book_id ≠ some b := by simpa using hmf.2
      refine ⟨?_, ?_⟩
      · exact h1
      · cases hb : r.book_id with
        | none => rfl
        | some x =>
          rw [hb] at h2 hne
          rw [fkBook_some_iff] at h2 ⊢
          show x ∈ db.books.filter _
          rw [List.mem_filter]
          refine ⟨h2, by simp; intro hxb; exact hne (by rw [hxb])⟩
    · intro s hs
      have hmf := List.mem_filter.mp hs
      obtain ⟨h1, h2⟩ := h.2 s hmf.1
      have hne : s.book_id ≠ some b := by simpa using hmf.2
      refine ⟨?_, ?_⟩
      · exact h1
      · cases hb : s.book_id with
        | none => rfl
        | some x =>
          rw [hb] at h2 hne
          rw [fkBook_some_iff] at h2 ⊢
          show x ∈ db.books.filter _
          rw [List.mem_filter]
          refine ⟨h2, by simp; intro hxb; exact hne (by rw [hxb])⟩
  | insertProgress ins now newId =>
    show refIntegrity (match insertProgress db ins now newId with
      | .ok db' => db' | .error _ => db) = true
    cases hins : insertProgress db ins now newId with
    | ok db' => exact refIntegrity_insertProgress db ins now newId db' hins h
    | error _ => exact h
  | insertSession ins now newId =>
    show refIntegrity (match insertSession db ins now newId with
      | .ok db' => db' | .error _ => db) = true
    cases hins : insertSession db ins now newId with
    | ok db' => exact refIntegrity_insertSession db ins now newId db' hins h
    | error _ => exact h
  | reportProgress uid book cp tp now newId =>
    show refIntegrity (match reportProgress db uid book cp tp now newId with
      | .ok db' => db' | .error _ => db) = true
    cases hrep : reportProgress db uid book cp tp now newId with
    | ok db' =>
      rw [reportProgress] at hrep
      split at hrep
      · cases hrep
        rw [refIntegrity_iff] at h ⊢
        refine ⟨?_, ?_⟩
        · intro r hr
          obtain ⟨r₀, hr₀, hfr⟩ := List.mem_map.mp hr
          obtain ⟨h1, h2⟩ := h.1 r₀ hr₀
          have hp := updateRow_preserves_pair r₀
            (fun r => r.user_id == some uid && r.book_id == some book)
            { current_page := some (clampPage cp tp)
              total_pages := some tp
              progress := some (computeProgress (clampPage cp tp) tp)
              last_read_at := some now } now rfl rfl
          rw [← hfr]
          refine ⟨?_, ?_⟩
          · rw [hp.1]
            exact h1
          · rw [hp.2]
            exact h2
        · intro s hs
          obtain ⟨h1, h2⟩ := h.2 s hs
          exact ⟨h1, h2⟩
      · exact refIntegrity_insertProgress db _ now newId db' hrep h
    | error _ => exact h
  | openSession uid book now newId =>
    show refIntegrity (match openSession db uid book now newId with
      | .ok db' => db' | .error _ => db) = true
    cases hop : openSession db uid book now newId with
    | ok db' =>
      rw [openSession] at hop
      exact refIntegrity_insertSession db _ now newId db' hop h
    | error _ => exact h
  | closeSession uid sid endTime pagesRead durOpt =>
    show refIntegrity (match closeSession db uid sid endTime pagesRead durOpt with
      | .ok db' => db' | .error _ => db) = true
    cases hcl : closeSession db uid sid endTime pagesRead durOpt with
    | ok db' =>
      rw [closeSession] at hcl
      split at hcl
      · cases hcl
      · split at hcl
        · cases hcl
          rw [refIntegrity_iff] at h ⊢
          refine ⟨?_, ?_⟩
          · intro r hr
            obtain ⟨h1, h2⟩ := h.1 r hr
            exact ⟨h1, h2⟩
          · intro s hs
            obtain ⟨s₀, hs₀, hfs⟩ := List.mem_map.mp hs
            obtain ⟨h1, h2⟩ := h.2 s₀ hs₀
            rw [← hfs]
            have hpair : (if s₀.id == sid then
                  update_updated_at_column_sessions endTime
                    { s₀ with
                      end_time := some endTime
                      pages_read := pagesRead
                      duration := durOpt.getD ((endTime : Int) - (s₀.start_time : Int)) }
                else s₀).user_id = s₀.user_id ∧
                (if s₀.id == sid then
                  update_updated_at_column_sessions endTime
                    { s₀ with
                      end_time := some endTime
                      pages_read := pagesRead
                      duration := durOpt.getD ((endTime : Int) - (s₀.start_time : Int)) }
                else s₀).book_id = s₀.book_id := by
              cases s₀.id == sid <;> simp [update_updated_at_column_sessions]
            refine ⟨?_, ?_⟩
            · rw [hpair.1]
              exact h1
            · rw [hpair.2]
              exact h2
        · cases hcl
    | error _ => exact h

/-- Any run of operations preserves referential integrity. -/
theorem runOps_refIntegrity (ops : List Op) :
    ∀ (db : DB), refIntegrity db = true → refIntegrity (runOps db ops) = true := by
  induction ops with
  | nil => intro db h; exact h
  | cons op ops ih =>
    intro db h
    exact ih (applyOp db op) (applyOp_refIntegrity db op h)

/-- Claim C5: deleting a user (or book) cascades — afterwards no progress or
session row references it — and every state reachable from the empty store
satisfies referential integrity: no stored row references a user or book
that does not exist. -/
theorem cascade_referential_integrity :
    (∀ (ops : List Op), refIntegrity (runOps emptyDB ops) = true) ∧
    (∀ (db : DB) (u : Nat),
      (deleteUser db u).progress.all (fun r => r.user_id ≠ some u) = true ∧
      (deleteUser db u).sessions.all (fun r => r.user_id ≠ some u) = true) ∧
    (∀ (db : DB) (b : Nat),
      (deleteBook db b).progress.all (fun r => r.book_id ≠ some b) = true ∧
      (deleteBook db b).sessions.all (fun r => r.book_id ≠ some b) = true) := by
  refine ⟨?_, ?_, ?_⟩
  · intro ops
    exact runOps_refIntegrity ops emptyDB rfl
  · intro db u
    constructor
    · rw [List.all_eq_true]
      intro r hr
      exact (List.mem_filter.mp hr).2
    · rw [List.all_eq_true]
      intro s hs
      exact (List.mem_filter.mp hs).2
  · intro db b
    constructor
    · rw [List.all_eq_true]
      intro r hr
      exact (List.mem_filter.mp hr).2
    · rw [List.all_eq_true]
      intro s hs
      exact (List.mem_filter.mp hs).2
